import Mathlib

/-!
Shallow embedding of the fastapi-gpt-chatbot backend
(src/app/models.py, src/app/schemas.py, src/app/openai_client.py,
src/app/routers/chat.py, src/app/routers/conversations.py),
with theorems settling the specification claims.

Modelling conventions:
* The relational store is a `DB` value: the two tables as lists in
  insertion order, the auto-increment counters, and a monotone server
  clock that stamps `created_at` (SQL `server_default=func.now()`).
* `ORDER BY created_at ASC/DESC` is embedded as a stable insertion
  sort `sortBy` with the corresponding Boolean comparator.
* The OpenAI completion call is a parameter
  `api : List Turn → Option String` (`none` = upstream failure);
  the environment is a parameter `env : String → Option String`
  (`os.getenv`).
* Python truthiness of `Optional[str]` (`if user_id:`, `if not api_key:`)
  is embedded explicitly: `none` and `some ""` are falsy.
-/

namespace Chatbot

/-- Conversation row (src/app/models.py, class Conversation). -/
structure Conversation where
  id : Nat
  user_id : Option String
  title : Option String
  created_at : Nat
deriving DecidableEq, Repr

/-- Message row (src/app/models.py, class Message). -/
structure Message where
  id : Nat
  conversation_id : Nat
  role : String
  content : String
  created_at : Nat
deriving DecidableEq, Repr

/-- One chat turn sent to the completion API:
the dicts built in src/app/routers/chat.py step 3. -/
structure Turn where
  role : String
  content : String
deriving DecidableEq, Repr

/-- Database state: both tables in insertion order, auto-increment
counters, and the server clock that stamps `created_at`. -/
structure DB where
  conversations : List Conversation
  messages : List Message
  nextConvId : Nat
  nextMsgId : Nat
  clock : Nat
deriving DecidableEq, Repr

/-- INSERT of a conversation row (`db.add(models.Conversation(...))` +
`db.flush()`, which makes the server-assigned id available).
Returns the new state and the new row's id. -/
def DB.addConversation (db : DB) (uid : Option String) (title : Option String) :
    DB × Nat :=
  let c : Conversation :=
    { id := db.nextConvId, user_id := uid, title := title, created_at := db.clock }
  ({ db with
      conversations := db.conversations ++ [c]
      nextConvId := db.nextConvId + 1
      clock := db.clock + 1 }, c.id)

/-- INSERT of a message row (`db.add(models.Message(...))`). -/
def DB.addMessage (db : DB) (cid : Nat) (role content : String) : DB :=
  let m : Message :=
    { id := db.nextMsgId, conversation_id := cid, role := role,
      content := content, created_at := db.clock }
  { db with
      messages := db.messages ++ [m]
      nextMsgId := db.nextMsgId + 1
      clock := db.clock + 1 }

/-- Primary-key lookup `db.get(models.Conversation, cid)`. -/
def DB.getConversation (db : DB) (cid : Nat) : Option Conversation :=
  db.conversations.find? (fun c => c.id == cid)

/-- Stable insertion of `a` into `l` with Boolean comparator `le`. -/
def ordInsert {α : Type} (le : α → α → Bool) (a : α) : List α → List α
  | [] => [a]
  | b :: l => if le a b then a :: b :: l else b :: ordInsert le a l

/-- Stable insertion sort: the embedding of SQL `ORDER BY`. -/
def sortBy {α : Type} (le : α → α → Bool) : List α → List α
  | [] => []
  | a :: l => ordInsert le a (sortBy le l)

/-- Comparator for `ORDER BY created_at ASC` on messages. -/
def msgAsc (a b : Message) : Bool := a.created_at ≤ b.created_at

/-- Comparator for `ORDER BY created_at DESC` on messages. -/
def msgDesc (a b : Message) : Bool := b.created_at ≤ a.created_at

/-- Comparator for `ORDER BY created_at DESC` on conversations. -/
def convDesc (a b : Conversation) : Bool := b.created_at ≤ a.created_at

/-- Reachability invariant of the store: rows are stamped by the
monotone server clock (so insertion order agrees with `created_at`
order, strictly), all stamps precede the clock, and every message
references an existing conversation (the foreign key). -/
def DB.WF (db : DB) : Prop :=
  db.messages.Pairwise (fun a b => a.created_at < b.created_at) ∧
  db.conversations.Pairwise (fun a b => a.created_at < b.created_at) ∧
  (∀ m ∈ db.messages, m.created_at < db.clock) ∧
  (∀ c ∈ db.conversations, c.created_at < db.clock) ∧
  (∀ m ∈ db.messages, ∃ c ∈ db.conversations, c.id = m.conversation_id)

instance (db : DB) : Decidable db.WF := by
  unfold DB.WF; infer_instance

/-! ### Completion client adapter (src/app/openai_client.py) -/

/-- The bare `httpx.Client()` constructed without arguments:
no proxy is configured. -/
structure HttpxClient where
  proxy : Option String
deriving DecidableEq, Repr

/-- The OpenAI client as constructed by the adapter: it is bound to the
credential and to the explicitly supplied HTTP transport. -/
structure OpenAIClient where
  api_key : String
  http_client : HttpxClient
deriving DecidableEq, Repr

/-- `get_openai_client` (src/app/openai_client.py): reads
`OPENAI_API_KEY` from the environment; `if not api_key:` treats both an
unset variable and an empty string as missing and raises; otherwise
returns `OpenAI(api_key=api_key, http_client=httpx.Client())`. -/
def get_openai_client (env : String → Option String) :
    Except String OpenAIClient :=
  match env "OPENAI_API_KEY" with
  | none => .error "OPENAI_API_KEY not set"
  | some api_key =>
    if api_key == "" then .error "OPENAI_API_KEY not set"
    else .ok { api_key := api_key, http_client := { proxy := none } }

/-! ### Conversation query service (src/app/routers/conversations.py) -/

/-- Python truthiness of the optional `user_id` query parameter:
`None` and the empty string are falsy (`if user_id:`). -/
def strTruthy : Option String → Bool
  | none => false
  | some s => !(s == "")

/-- GET /conversations (src/app/routers/conversations.py,
`list_conversations`): optional truthy filter on `user_id`, then
`ORDER BY created_at DESC`. -/
def list_conversations (db : DB) (user_id : Option String) :
    List Conversation :=
  let q := db.conversations
  let q := if strTruthy user_id
    then q.filter (fun c => c.user_id == user_id)
    else q
  sortBy convDesc q

/-- Response body of GET /conversations/:id/messages
(src/app/schemas.py, `MessageList`). -/
structure MessageList where
  conversation_id : Nat
  messages : List Message
deriving DecidableEq, Repr

/-- GET /conversations/:id/messages (src/app/routers/conversations.py,
`get_messages`): conversation lookup, empty result when it is missing,
otherwise the conversation's messages `ORDER BY created_at ASC`. -/
def get_messages (db : DB) (conversation_id : Nat) : MessageList :=
  match db.getConversation conversation_id with
  | none => { conversation_id := conversation_id, messages := [] }
  | some _ =>
    { conversation_id := conversation_id
      messages := sortBy msgAsc
        (db.messages.filter (fun m => m.conversation_id == conversation_id)) }

/-- The GET /conversations/:id/messages handler as a state
transformer: it issues only SELECT statements, so the database state it
hands back is the one it received. -/
def get_messages_op (db : DB) (conversation_id : Nat) : DB × MessageList :=
  (db, get_messages db conversation_id)

/-! ### Chat orchestration (src/app/routers/chat.py) -/

/-- The fixed system instruction `SYSTEM_PROMPT`. -/
def SYSTEM_PROMPT : String :=
  "You are a helpful, concise assistant. Keep replies short unless asked for detail."

/-- Request body of POST /chat (src/app/schemas.py, `ChatRequest`). -/
structure ChatRequest where
  user_id : Option String
  conversation_id : Option Nat
  message : String
deriving DecidableEq, Repr

/-- Response body of POST /chat (src/app/schemas.py, `ChatResponse`). -/
structure ChatResponse where
  conversation_id : Nat
  reply : String
deriving DecidableEq, Repr

/-- How a chat request can fail: 404 for an unknown conversation id,
500 for a missing credential (`get_openai_client` raising), 5xx for a
failed upstream completion call. -/
inductive ChatError where
  | notFound
  | configMissing
  | upstream
deriving DecidableEq, Repr

/-- Step 3 of the handler: the last-20 window,
`ORDER BY created_at DESC LIMIT 20` then `list(reversed(...))`. -/
def promptWindow (db : DB) (cid : Nat) : List Message :=
  ((sortBy msgDesc
    (db.messages.filter (fun m => m.conversation_id == cid))).take 20).reverse

/-- The turn list sent to the completion API: the fixed system turn
prepended to the window. -/
def promptTurns (db : DB) (cid : Nat) : List Turn :=
  { role := "system", content := SYSTEM_PROMPT } ::
    (promptWindow db cid).map (fun m => { role := m.role, content := m.content })

/-- The body of the POST /chat handler (src/app/routers/chat.py, `chat`),
acting on the request's uncommitted session state: resolve or create the
conversation, persist the user turn, build the window, obtain the client,
call the completion API, persist the reply. `env` models `os.getenv`;
`api` models `client.chat.completions.create` returning the first
choice's content, with `none` for any upstream failure. -/
def chat (db : DB) (payload : ChatRequest) (env : String → Option String)
    (api : List Turn → Option String) :
    Except ChatError (DB × ChatResponse) :=
  match (match payload.conversation_id with
    | none => .ok (db.addConversation payload.user_id none)
    | some cid =>
      match db.getConversation cid with
      | none => .error ChatError.notFound
      | some conv => .ok (db, conv.id) : Except ChatError (DB × Nat)) with
  | .error e => .error e
  | .ok (db1, cid) =>
    let db2 := db1.addMessage cid "user" payload.message
    match get_openai_client env with
    | .error _ => .error ChatError.configMissing
    | .ok _client =>
      match api (promptTurns db2 cid) with
      | none => .error ChatError.upstream
      | some reply =>
        let db3 := db2.addMessage cid "assistant" reply
        .ok (db3, { conversation_id := cid, reply := reply })

/-- Modelled from the spec: the per-request session lifecycle `get_db`
lives in src/app/database.py, which is not part of the sources here.
Per §4.1 and §4.3 of the spec, all writes of one request share one
transaction that is committed only at the single `db.commit()` at the
end of the handler; on any failure before that point nothing becomes
visible. `runChat` therefore publishes the session state only on
success and keeps the original state on any error. -/
def runChat (db : DB) (payload : ChatRequest) (env : String → Option String)
    (api : List Turn → Option String) :
    DB × Except ChatError ChatResponse :=
  match chat db payload env api with
  | .ok (db3, resp) => (db3, .ok resp)
  | .error e => (db, .error e)

/-! ### Supporting lemmas about the `ORDER BY` embedding -/

theorem ordInsert_of_forall_false {α : Type} (le : α → α → Bool) (a : α)
    (l : List α) (h : ∀ b ∈ l, le a b = false) :
    ordInsert le a l = l ++ [a] := by
  induction l with
  | nil => rfl
  | cons b t ih =>
    simp only [ordInsert, h b (List.mem_cons_self b t), Bool.false_eq_true,
      if_false, List.cons_append, List.cons.injEq, true_and]
    exact ih fun x hx => h x (List.mem_cons_of_mem b hx)

/-- Sorting a list whose elements are already in strictly reversed
comparator order yields its reverse: this is `ORDER BY ... DESC` on a
store kept in ascending insertion order. -/
theorem sortBy_eq_reverse {α : Type} (le : α → α → Bool) (l : List α)
    (h : l.Pairwise (fun a b => le a b = false)) :
    sortBy le l = l.reverse := by
  induction l with
  | nil => rfl
  | cons a t ih =>
    rw [List.pairwise_cons] at h
    simp only [sortBy, ih h.2, List.reverse_cons]
    exact ordInsert_of_forall_false le a t.reverse
      fun b hb => h.1 b (List.mem_reverse.mp hb)

/-- Sorting an already sorted list is the identity: this is
`ORDER BY ... ASC` on a store kept in ascending insertion order. -/
theorem sortBy_eq_self {α : Type} (le : α → α → Bool) (l : List α)
    (h : l.Pairwise (fun a b => le a b = true)) :
    sortBy le l = l := by
  induction l with
  | nil => rfl
  | cons a t ih =>
    rw [List.pairwise_cons] at h
    rw [sortBy, ih h.2]
    cases t with
    | nil => rfl
    | cons b t' => simp [ordInsert, h.1 b (List.mem_cons_self b t')]

theorem mem_ordInsert {α : Type} (le : α → α → Bool) (a x : α)
    (l : List α) : x ∈ ordInsert le a l ↔ x = a ∨ x ∈ l := by
  induction l with
  | nil => simp [ordInsert]
  | cons b t ih =>
    by_cases hab : le a b
    · simp only [ordInsert, hab, if_true, List.mem_cons]
    · simp only [ordInsert, hab, Bool.false_eq_true, if_false,
        List.mem_cons, ih]
      tauto

theorem mem_sortBy {α : Type} (le : α → α → Bool) (x : α)
    (l : List α) : x ∈ sortBy le l ↔ x ∈ l := by
  induction l with
  | nil => simp [sortBy]
  | cons a t ih =>
    rw [sortBy, mem_ordInsert, ih, List.mem_cons]

/-- Inserting a message keeps the message table in strictly ascending
`created_at` order: the new row is stamped with the current clock, which
strictly exceeds every existing stamp. -/
theorem addMessage_pairwise (db : DB) (h : db.WF) (cid : Nat)
    (role content : String) :
    (db.addMessage cid role content).messages.Pairwise
      (fun a b => a.created_at < b.created_at) := by
  obtain ⟨h1, -, h3, -, -⟩ := h
  unfold DB.addMessage
  rw [List.pairwise_append]
  refine ⟨h1, List.pairwise_singleton _ _, ?_⟩
  intro a ha b hb
  rw [List.mem_singleton] at hb
  subst hb
  exact h3 a ha

/-- If no conversation in the store carries id `cid`, the primary-key
lookup fails. -/
theorem getConversation_eq_none (db : DB) (cid : Nat)
    (h : ∀ c ∈ db.conversations, c.id ≠ cid) :
    db.getConversation cid = none := by
  unfold DB.getConversation
  rw [List.find?_eq_none]
  intro c hc
  simp [h c hc]

/-! ### Concrete sample stores used by witnesses -/

/-- A conversation row owned by user "alice". -/
def convA : Conversation :=
  { id := 1, user_id := some "alice", title := none, created_at := 0 }

/-- A store holding only `convA`. -/
def dbA : DB :=
  { conversations := [convA], messages := [], nextConvId := 2,
    nextMsgId := 1, clock := 1 }

/-- An anonymous conversation row. -/
def convB : Conversation :=
  { id := 1, user_id := none, title := none, created_at := 0 }

/-- One user message in conversation 1. -/
def msgB : Message :=
  { id := 1, conversation_id := 1, role := "user", content := "hi",
    created_at := 1 }

/-- A store holding `convB` with the single message `msgB`. -/
def dbB : DB :=
  { conversations := [convB], messages := [msgB], nextConvId := 2,
    nextMsgId := 2, clock := 2 }

/-- The store of a freshly created, empty database. -/
def dbEmpty : DB :=
  { conversations := [], messages := [], nextConvId := 1, nextMsgId := 1,
    clock := 0 }

/-- A store in which conversation 1 already holds 20 messages. -/
def db20 : DB :=
  { conversations := [convB]
    messages := (List.range 20).map fun i =>
      { id := i + 1, conversation_id := 1, role := "user", content := "m",
        created_at := i + 1 }
    nextConvId := 2, nextMsgId := 21, clock := 21 }

/-! ### Claims -/

/-- C2: for every POST /chat that fails — in particular when the
completion-API call fails after the conversation has been resolved or
created and the user message added — no write of that request becomes
visible: the published state is exactly the state the request started
from, so a failed chat request never leaves an orphaned user-only
message. -/
theorem failed_chat_leaves_db_unchanged (db : DB) (p : ChatRequest)
    (env : String → Option String) (api : List Turn → Option String)
    (e : ChatError) (h : (runChat db p env api).2 = Except.error e) :
    (runChat db p env api).1 = db := by
  cases hc : chat db p env api with
  | ok v =>
    obtain ⟨db3, resp⟩ := v
    simp only [runChat, hc] at h
    exact Except.noConfusion h
  | error e' => simp only [runChat, hc]

/-- Witness for C2: a concrete request on `dbA` whose upstream
completion call fails leaves `dbA` exactly as it was, even though the
conversation was resolved and the user turn had been added to the
session. -/
theorem failed_chat_leaves_db_unchanged_witness :
    (runChat dbA (⟨some "alice", some 1, "hi"⟩ : ChatRequest)
      (fun _ => some "sk-test") (fun _ => none)).1 = dbA :=
  failed_chat_leaves_db_unchanged dbA ⟨some "alice", some 1, "hi"⟩
    (fun _ => some "sk-test") (fun _ => none) ChatError.upstream rfl

/-- C3: POST /chat with a conversation_id matching no existing
conversation answers 404 Not Found, and the published state is the
unchanged starting state: no message is persisted by that request. -/
theorem chat_unknown_conversation_not_found (db : DB) (p : ChatRequest)
    (env : String → Option String) (api : List Turn → Option String)
    (cid : Nat) (hcid : p.conversation_id = some cid)
    (h : ∀ c ∈ db.conversations, c.id ≠ cid) :
    runChat db p env api = (db, Except.error ChatError.notFound) := by
  have hfind := getConversation_eq_none db cid h
  simp only [runChat, chat, hcid, hfind]

/-- Witness for C3: requesting conversation 7 on `dbA`, which only holds
conversation 1, answers 404 and leaves the store unchanged. -/
theorem chat_unknown_conversation_not_found_witness :
    runChat dbA (⟨none, some 7, "hi"⟩ : ChatRequest)
      (fun _ => some "sk-test") (fun _ => some "ok") =
      (dbA, Except.error ChatError.notFound) :=
  chat_unknown_conversation_not_found dbA ⟨none, some 7, "hi"⟩
    (fun _ => some "sk-test") (fun _ => some "ok") 7 rfl (by decide)

/-- C6: GET /conversations/:id/messages for an id matching no existing
conversation returns the id with an empty message list rather than an
error. -/
theorem get_messages_unknown_id_empty (db : DB) (cid : Nat)
    (h : ∀ c ∈ db.conversations, c.id ≠ cid) :
    get_messages db cid = { conversation_id := cid, messages := [] } := by
  have hfind := getConversation_eq_none db cid h
  unfold get_messages
  rw [hfind]

/-- Witness for C6: id 5 on the empty store yields conversation_id 5
with no messages. -/
theorem get_messages_unknown_id_empty_witness :
    get_messages dbEmpty 5 = { conversation_id := 5, messages := [] } :=
  get_messages_unknown_id_empty dbEmpty 5 (by decide)

/-- C8: the GET /conversations/:id/messages handler is a read-only,
deterministic function of the store: it hands the state back unchanged,
and a second call with no intervening writes returns the identical
result. -/
theorem get_messages_idempotent (db : DB) (cid : Nat) :
    (get_messages_op db cid).1 = db ∧
    (get_messages_op (get_messages_op db cid).1 cid).2 =
      (get_messages_op db cid).2 :=
  ⟨rfl, rfl⟩

/-- C10: every message in the GET /conversations/:id/messages response
belongs to the requested conversation; messages of other conversations
never appear. -/
theorem get_messages_only_requested_conversation (db : DB) (cid : Nat) :
    ∀ m ∈ (get_messages db cid).messages, m.conversation_id = cid := by
  intro m hm
  unfold get_messages at hm
  split at hm
  · simp at hm
  · simp only [mem_sortBy, List.mem_filter, beq_iff_eq] at hm
    exact hm.2

/-- Witness for C10: the message returned for conversation 1 of `dbB`
indeed carries conversation_id 1. -/
theorem get_messages_only_requested_conversation_witness :
    msgB ∈ (get_messages dbB 1).messages ∧ msgB.conversation_id = 1 :=
  ⟨by decide,
    get_messages_only_requested_conversation dbB 1 msgB (by decide)⟩

/-- C5: in any store reachable through the server-stamped insert
operations, GET /conversations/:id/messages returns exactly the
conversation's messages in insertion order (the store's order), and
their creation times are non-decreasing along the result. -/
theorem get_messages_insertion_order (db : DB) (h : db.WF) (cid : Nat) :
    (get_messages db cid).messages =
      db.messages.filter (fun m => m.conversation_id == cid) ∧
    (get_messages db cid).messages.Pairwise
      (fun a b => a.created_at ≤ b.created_at) := by
  obtain ⟨h1, -, -, -, h5⟩ := h
  have hpair : (db.messages.filter
      (fun m => m.conversation_id == cid)).Pairwise
      (fun a b => a.created_at < b.created_at) :=
    h1.sublist (List.filter_sublist db.messages)
  cases hfind : db.getConversation cid with
  | none =>
    have hnone : ∀ c ∈ db.conversations, c.id ≠ cid := by
      unfold DB.getConversation at hfind
      rw [List.find?_eq_none] at hfind
      intro c hc
      simpa using hfind c hc
    have hflt : db.messages.filter (fun m => m.conversation_id == cid) = [] := by
      rw [List.filter_eq_nil_iff]
      intro m hm
      simp only [beq_iff_eq]
      intro heq
      obtain ⟨c, hcmem, hcid⟩ := h5 m hm
      exact hnone c hcmem (by rw [hcid, heq])
    have hres : get_messages db cid = { conversation_id := cid, messages := [] } := by
      unfold get_messages
      rw [hfind]
    rw [hres, hflt]
    exact ⟨rfl, List.Pairwise.nil⟩
  | some conv =>
    have hres : get_messages db cid =
        { conversation_id := cid
          messages := sortBy msgAsc (db.messages.filter
            (fun m => m.conversation_id == cid)) } := by
      unfold get_messages
      rw [hfind]
    have hsorted : sortBy msgAsc (db.messages.filter
        (fun m => m.conversation_id == cid)) =
        db.messages.filter (fun m => m.conversation_id == cid) :=
      sortBy_eq_self msgAsc _ (hpair.imp fun hab => by
        simp only [msgAsc, decide_eq_true_eq]
        omega)
    rw [hres, hsorted]
    exact ⟨rfl, hpair.imp fun hab => Nat.le_of_lt hab⟩

/-- Witness for C5: the single-message store `dbB` yields its message
list in insertion order with non-decreasing creation times. -/
theorem get_messages_insertion_order_witness :
    (get_messages dbB 1).messages =
      dbB.messages.filter (fun m => m.conversation_id == 1) ∧
    (get_messages dbB 1).messages.Pairwise
      (fun a b => a.created_at ≤ b.created_at) :=
  get_messages_insertion_order dbB (by decide) 1

/-- C4 counterexample: the claim fails for the empty-string user_id.
`GET /conversations?user_id=` reaches the handler as the empty string,
which is falsy in Python (`if user_id:`), so the filter is skipped and
conversations of other users are returned: on `dbA` the result is
alice's conversation although its user_id differs from "". -/
theorem list_conversations_empty_user_id_cex :
    list_conversations dbA (some "") = [convA] ∧
    convA.user_id ≠ some "" := by
  exact ⟨rfl, by decide⟩

/-- C4 (amended): with a non-empty user_id given, the result is exactly
the conversations with that exact user_id, ordered by creation time
descending; with no user_id given — or the empty string, which Python
truthiness treats the same — all conversations are returned in that
order. -/
theorem list_conversations_filter_order (db : DB) (h : db.WF) :
    (∀ s : String, s ≠ "" →
      list_conversations db (some s) =
        (db.conversations.filter (fun c => c.user_id == some s)).reverse ∧
      (list_conversations db (some s)).Pairwise
        (fun a b => b.created_at ≤ a.created_at)) ∧
    list_conversations db none = db.conversations.reverse ∧
    list_conversations db (some "") = db.conversations.reverse := by
  obtain ⟨-, h2, -, -, -⟩ := h
  have hdesc : ∀ l : List Conversation,
      l.Pairwise (fun a b => a.created_at < b.created_at) →
      sortBy convDesc l = l.reverse := fun l hl =>
    sortBy_eq_reverse convDesc l (hl.imp fun hab => by
      simp only [convDesc, decide_eq_false_iff_not]
      omega)
  refine ⟨?_, ?_, ?_⟩
  · intro s hs
    have htr : strTruthy (some s) = true := by
      simp only [strTruthy, Bool.not_eq_eq_eq_not, Bool.not_true,
        beq_eq_false_iff_ne, ne_eq]
      exact hs
    have hflt : (db.conversations.filter
        (fun c => c.user_id == some s)).Pairwise
        (fun a b => a.created_at < b.created_at) :=
      h2.sublist (List.filter_sublist db.conversations)
    constructor
    · simp only [list_conversations, htr, if_true]
      exact hdesc _ hflt
    · simp only [list_conversations, htr, if_true, hdesc _ hflt]
      rw [List.pairwise_reverse]
      exact hflt.imp fun hab => Nat.le_of_lt hab
  · simp only [list_conversations, strTruthy, Bool.false_eq_true, if_false]
    exact hdesc _ h2
  · simp only [list_conversations, strTruthy]
    norm_num
    exact hdesc _ h2

/-- Witness for C4: filtering `dbA` by the non-empty user id "alice"
returns exactly alice's conversation, ordered by creation time
descending. -/
theorem list_conversations_filter_order_witness :
    list_conversations dbA (some "alice") =
      (dbA.conversations.filter (fun c => c.user_id == some "alice")).reverse ∧
    (list_conversations dbA (some "alice")).Pairwise
      (fun a b => b.created_at ≤ a.created_at) :=
  (list_conversations_filter_order dbA (by decide)).1 "alice" (by decide)

/-- C7 counterexample: the claim fails when the environment variable is
set to the empty string. The credential read is "" — present, not
absent — yet `if not api_key:` treats it as falsy and the adapter
raises instead of returning a client bound to "". -/
theorem get_openai_client_empty_key_cex :
    (∃ e, get_openai_client
        (fun k => if k == "OPENAI_API_KEY" then some "" else none) =
      Except.error e) ∧
    (fun k => if k == "OPENAI_API_KEY" then some "" else none)
        "OPENAI_API_KEY" ≠ none :=
  ⟨⟨"OPENAI_API_KEY not set", rfl⟩, by decide⟩

/-- C7 (amended): `get_openai_client` fails if and only if the
credential read from the environment is absent or the empty string;
when a non-empty credential is present it returns a client bound to
that credential over the explicitly constructed, proxy-free HTTP
transport. -/
theorem get_openai_client_spec (env : String → Option String) :
    ((∃ e, get_openai_client env = Except.error e) ↔
      (env "OPENAI_API_KEY" = none ∨ env "OPENAI_API_KEY" = some "")) ∧
    (∀ k, env "OPENAI_API_KEY" = some k → k ≠ "" →
      get_openai_client env =
        Except.ok { api_key := k, http_client := { proxy := none } }) := by
  constructor
  · constructor
    · rintro ⟨e, he⟩
      cases henv : env "OPENAI_API_KEY" with
      | none => exact Or.inl rfl
      | some k =>
        simp only [get_openai_client, henv] at he
        by_cases hk : k = ""
        · exact Or.inr (by rw [hk])
        · rw [if_neg (by simp [hk])] at he
          exact Except.noConfusion he
    · intro habs
      cases habs with
      | inl hnone =>
        exact ⟨"OPENAI_API_KEY not set", by
          simp only [get_openai_client, hnone]⟩
      | inr hempty =>
        refine ⟨"OPENAI_API_KEY not set", ?_⟩
        simp only [get_openai_client, hempty]
        rw [if_pos (by simp)]
  · intro k hk hne
    simp only [get_openai_client, hk]
    rw [if_neg (by simp [hne])]

/-- Witness for C7: an environment carrying the non-empty credential
"sk-test" yields a client bound to "sk-test" over the proxy-free
transport. -/
theorem get_openai_client_spec_witness :
    get_openai_client (fun _ => some "sk-test") =
      Except.ok { api_key := "sk-test", http_client := { proxy := none } } :=
  (get_openai_client_spec (fun _ => some "sk-test")).2 "sk-test" rfl
    (by decide)

/-- C1: on a conversation holding more than 20 messages once the user
turn is persisted, the turn list handed to the completion API (the
`promptTurns` the handler passes to the call in step 4) is exactly one
fixed system turn followed by the 20 most recent messages of that
conversation in oldest-first order — the last 20 entries of the
conversation's insertion-order message list — and has exactly 21
turns. -/
theorem chat_prompt_window_last20 (db : DB) (h : db.WF) (cid : Nat)
    (content : String)
    (hlen : 20 < ((db.addMessage cid "user" content).messages.filter
        (fun m => m.conversation_id == cid)).length) :
    promptTurns (db.addMessage cid "user" content) cid =
      { role := "system", content := SYSTEM_PROMPT } ::
        (((db.addMessage cid "user" content).messages.filter
            (fun m => m.conversation_id == cid)).drop
          (((db.addMessage cid "user" content).messages.filter
            (fun m => m.conversation_id == cid)).length - 20)).map
          (fun m => { role := m.role, content := m.content }) ∧
    (promptTurns (db.addMessage cid "user" content) cid).length = 21 := by
  set db2 := db.addMessage cid "user" content with hdb2
  set flt := db2.messages.filter (fun m => m.conversation_id == cid)
    with hflt
  have hp2 : db2.messages.Pairwise
      (fun a b => a.created_at < b.created_at) :=
    addMessage_pairwise db h cid "user" content
  have hp : flt.Pairwise (fun a b => a.created_at < b.created_at) :=
    hp2.sublist (List.filter_sublist _)
  have hsort : sortBy msgDesc flt = flt.reverse :=
    sortBy_eq_reverse msgDesc flt (hp.imp fun hab => by
      simp only [msgDesc, decide_eq_false_iff_not]
      omega)
  have hwin : promptWindow db2 cid = flt.drop (flt.length - 20) := by
    unfold promptWindow
    rw [← hflt, hsort, ← List.rtake_eq_reverse_take_reverse, List.rtake]
  constructor
  · unfold promptTurns
    rw [hwin]
  · unfold promptTurns
    rw [hwin]
    simp only [List.length_cons, List.length_map, List.length_drop]
    omega

/-- Witness for C1: on `db20`, whose conversation 1 holds 20 messages,
adding the user turn brings the conversation to 21 messages and the
prompt is the system turn plus the most recent 20, 21 turns in all. -/
theorem chat_prompt_window_last20_witness :
    promptTurns (db20.addMessage 1 "user" "new") 1 =
      { role := "system", content := SYSTEM_PROMPT } ::
        (((db20.addMessage 1 "user" "new").messages.filter
            (fun m => m.conversation_id == 1)).drop
          (((db20.addMessage 1 "user" "new").messages.filter
            (fun m => m.conversation_id == 1)).length - 20)).map
          (fun m => { role := m.role, content := m.content }) ∧
    (promptTurns (db20.addMessage 1 "user" "new") 1).length = 21 :=
  chat_prompt_window_last20 db20 (by decide) 1 "new" (by decide)

/-- C9: every successful POST /chat appends exactly two messages to the
store, both on the resolved conversation (the one named in the
response): first a "user" message carrying the request's message field,
then an "assistant" message carrying the reply returned in the
response body. -/
theorem chat_appends_user_then_assistant (db : DB) (p : ChatRequest)
    (env : String → Option String) (api : List Turn → Option String)
    (db' : DB) (resp : ChatResponse)
    (h : runChat db p env api = (db', Except.ok resp)) :
    ∃ u a : Message,
      db'.messages = db.messages ++ [u, a] ∧
      u.role = "user" ∧ u.content = p.message ∧
      u.conversation_id = resp.conversation_id ∧
      a.role = "assistant" ∧ a.content = resp.reply ∧
      a.conversation_id = resp.conversation_id := by
  cases hc : chat db p env api with
  | error e =>
    simp only [runChat, hc] at h
    rw [Prod.mk.injEq] at h
    exact Except.noConfusion h.2
  | ok v =>
    obtain ⟨db3, r⟩ := v
    simp only [runChat, hc] at h
    rw [Prod.mk.injEq] at h
    obtain ⟨hdb, hr⟩ := h
    injection hr with hr
    subst hdb
    subst hr
    unfold chat at hc
    split at hc
    · exact Except.noConfusion hc
    · rename_i db1 cid heq
      split at hc
      · exact Except.noConfusion hc
      · simp only [] at hc
        split at hc
        · exact Except.noConfusion hc
        · rename_i reply hapi
          injection hc with hc
          rw [Prod.mk.injEq] at hc
          obtain ⟨hdb', hresp⟩ := hc
          have hmsgs1 : db1.messages = db.messages := by
            split at heq
            · injection heq with heq
              rw [Prod.mk.injEq] at heq
              rw [← heq.1]
              rfl
            · split at heq
              · exact Except.noConfusion heq
              · injection heq with heq
                rw [Prod.mk.injEq] at heq
                rw [← heq.1]
          refine ⟨⟨db1.nextMsgId, cid, "user", p.message, db1.clock⟩,
            ⟨db1.nextMsgId + 1, cid, "assistant", reply, db1.clock + 1⟩,
            ?_, rfl, rfl, ?_, rfl, ?_, ?_⟩
          · rw [← hdb']
            show ((db1.addMessage cid "user" p.message).addMessage cid
              "assistant" reply).messages = _
            simp only [DB.addMessage, List.append_assoc, hmsgs1]
            rfl
          · rw [← hresp]
          · rw [← hresp]
          · rw [← hresp]

/-- Witness for C9: a successful request on `dbB` with reply "yo"
appends the user message "hello" and then the assistant message "yo"
to conversation 1. -/
theorem chat_appends_user_then_assistant_witness :
    ∃ u a : Message,
      ((dbB.addMessage 1 "user" "hello").addMessage 1
          "assistant" "yo").messages = dbB.messages ++ [u, a] ∧
      u.role = "user" ∧ u.content = "hello" ∧
      u.conversation_id = (1 : Nat) ∧
      a.role = "assistant" ∧ a.content = "yo" ∧
      a.conversation_id = (1 : Nat) :=
  chat_appends_user_then_assistant dbB
    (⟨none, some 1, "hello"⟩ : ChatRequest)
    (fun _ => some "sk-test") (fun _ => some "yo")
    ((dbB.addMessage 1 "user" "hello").addMessage 1 "assistant" "yo")
    (⟨1, "yo"⟩ : ChatResponse) rfl

end Chatbot
